import Mathlib

/-!
Shallow embedding of the prest-client query builder (src/api/prest.ts).

The `ChainedQuery` class is modelled as a record of its mutable fields; each
builder method becomes a constructor of `BuilderOp`, and the mutation it
performs on the instance is the function `applyOp`.  The URL assembly and the
response-decoding dispatch of `execute()` are the functions `executeUrl`,
`decodeResponse` and `executeWith`.  JavaScript values that flow into clause
strings are modelled by `JsValue`, JavaScript string coercion by
`jsValueToString`, and `encodeURIComponent` by the function of the same name
(unreserved set A-Z a-z 0-9 - _ . ! ~ * ( ) and the apostrophe, other
characters percent-encoded from their UTF-8 bytes in uppercase hex).
-/

namespace PrestClient

/-- A JavaScript value, restricted to the shapes this client passes around. -/
inductive JsValue where
  | undef
  | jsNull
  | num (n : Int)
  | str (s : String)
  | bool (b : Bool)
deriving DecidableEq, Repr

/-- JavaScript truthiness of a `JsValue`. -/
def jsTruthy : JsValue → Bool
  | .undef => false
  | .jsNull => false
  | .num n => n != 0
  | .str s => s != ""
  | .bool b => b

/-- JavaScript string coercion of a `JsValue`. -/
def jsValueToString : JsValue → String
  | .undef => "undefined"
  | .jsNull => "null"
  | .num n => toString n
  | .str s => s
  | .bool b => if b then "true" else "false"

/-- How one array element prints under Array.prototype.join: null and
undefined print as the empty string, everything else by string coercion. -/
def jsJoinElement (v : JsValue) : String :=
  match v with
  | .undef => ""
  | .jsNull => ""
  | _ => jsValueToString v

/-- Comma-join of a list of strings, as Array.prototype.join with comma. -/
def joinComma : List String → String
  | [] => ""
  | [s] => s
  | s :: rest => s ++ "," ++ joinComma rest

/-- Characters left unescaped by encodeURIComponent (and by the query-string
escape of the runtime, which uses the same unreserved set): letters, digits,
and the marks - _ . ! ~ * ( ) together with the apostrophe (code 39). -/
def uriUnreservedChar (c : Char) : Bool :=
  let n := c.toNat
  (decide (65 ≤ n) && decide (n ≤ 90)) ||
  (decide (97 ≤ n) && decide (n ≤ 122)) ||
  (decide (48 ≤ n) && decide (n ≤ 57)) ||
  n == 45 || n == 95 || n == 46 || n == 33 || n == 126 ||
  n == 42 || n == 39 || n == 40 || n == 41

/-- Uppercase hexadecimal digit for a value below 16. -/
def hexUpperDigit (n : Nat) : Char :=
  if n < 10 then Char.ofNat (48 + n) else Char.ofNat (55 + n)

/-- Percent-encoding of a single byte, uppercase hex. -/
def percentByte (b : Nat) : String :=
  "%" ++ String.singleton (hexUpperDigit (b / 16)) ++
    String.singleton (hexUpperDigit (b % 16))

/-- UTF-8 bytes of a character, by the standard range split. -/
def utf8Bytes (c : Char) : List Nat :=
  let n := c.toNat
  if n < 128 then [n]
  else if n < 2048 then [192 + n / 64, 128 + n % 64]
  else if n < 65536 then [224 + n / 4096, 128 + (n / 64) % 64, 128 + n % 64]
  else [240 + n / 262144, 128 + (n / 4096) % 64, 128 + (n / 64) % 64,
        128 + n % 64]

/-- Model of the JavaScript built-in encodeURIComponent. -/
def encodeURIComponent (s : String) : String :=
  String.join (s.data.map fun c =>
    if uriUnreservedChar c then String.singleton c
    else String.join ((utf8Bytes c).map percentByte))

/-- Serialization of a one-entry object by the querystring stringify used in
the builder methods: key, equals sign, escaped value (the runtime's escape
has the same unreserved set as encodeURIComponent). -/
def stringifyPair (key value : String) : String :=
  key ++ "=" ++ encodeURIComponent value

/-- The request type fixed at construction of a ChainedQuery. -/
inductive ReqType where
  | get
  | post
  | put
  | delete
  | exportData
deriving DecidableEq, Repr

/-- The renderer argument: json (default) or xml. -/
inductive RenderMode where
  | json
  | xml
deriving DecidableEq, Repr

/-- Wire form of a render mode. -/
def renderModeString : RenderMode → String
  | .json => "json"
  | .xml => "xml"

/-- The fields of a ChainedQuery instance (class ChainedQuery in
src/api/prest.ts).  The client reference is not carried: it only supplies the
transport, which is modelled separately. -/
structure ChainedQuery where
  baseUrl : String
  reqType : ReqType
  body : JsValue
  rendererArg : RenderMode
  sqlFunctions : List String
  chainedOperations : List String
deriving DecidableEq, Repr

/-- One builder-method invocation on a ChainedQuery, with its arguments.
The method named in on the class is `inOp` here (a reserved word), and the
null and notNull methods are `nullOp` and `notNullOp`. -/
inductive BuilderOp where
  | page (n : Int)
  | pageSize (n : Int)
  | select (fields : String)
  | count (field : Option String)
  | countFirst (b : Bool)
  | renderer (r : RenderMode)
  | distinct (b : Bool)
  | order (fields : List String)
  | groupBy (fields : List String)
  | eq (field : String) (value : JsValue)
  | gt (field : String) (value : JsValue)
  | gte (field : String) (value : JsValue)
  | lt (field : String) (value : JsValue)
  | lte (field : String) (value : JsValue)
  | ne (field : String) (value : JsValue)
  | inOp (field : String) (values : List JsValue)
  | notIn (field : String) (values : List JsValue)
  | nullOp (field : String)
  | notNullOp (field : String)
  | like (field : String) (value : String)
  | ilike (field : String) (value : String)
  | notLike (field : String) (value : String)
  | sum (field : String)
  | avg (field : String)
  | max (field : String)
  | min (field : String)
  | stdDev (field : String)
  | variance (field : String)
  | having (groupFunc : String) (field : String) (condition : String)
      (value : JsValue)
  | filterRange (field : String) (start stop : JsValue)
  | join (joinType : String) (jointable : String) (localField : String)
      (operator : String) (foreignField : String)
  | jsonbFilter (field : String) (jsonField : String) (value : JsValue)
  | textSearch (field : String) (tsQueryArg : String) (language : Option String)
deriving DecidableEq, Repr

/-- Push one clause string onto chainedOperations (this.chainedOperations.push). -/
def pushClause (q : ChainedQuery) (c : String) : ChainedQuery :=
  { q with chainedOperations := q.chainedOperations ++ [c] }

/-- Push one aggregate token onto sqlFunctions (this.sqlFunctions.push). -/
def pushAggregate (q : ChainedQuery) (f : String) : ChainedQuery :=
  { q with sqlFunctions := q.sqlFunctions ++ [f] }

/-- The mutation each builder method performs on the instance, translated
case by case from the method bodies in src/api/prest.ts. -/
def applyOp (q : ChainedQuery) : BuilderOp → ChainedQuery
  | .page n => pushClause q (stringifyPair "_page" (toString n))
  | .pageSize n => pushClause q (stringifyPair "_page_size" (toString n))
  | .select fields => pushClause q (stringifyPair "_select" fields)
  | .count field =>
      let fieldValue := match field with
        | some f => if f == "" then "*" else f
        | none => "*"
      pushClause q (stringifyPair "_count" fieldValue)
  | .countFirst b =>
      pushClause q (stringifyPair "_count_first" (if b then "true" else "false"))
  | .renderer r =>
      { pushClause q (stringifyPair "_renderer" (renderModeString r)) with
          rendererArg := r }
  | .distinct b =>
      pushClause q (stringifyPair "_distinct" (if b then "true" else "false"))
  | .order fields =>
      let orderFields := fields.map fun f =>
        if f.startsWith "-" then f else f
      pushClause q (stringifyPair "_order" (joinComma orderFields))
  | .groupBy fields => pushClause q (stringifyPair "_groupby" (joinComma fields))
  | .eq field value =>
      pushClause q (field ++ "=" ++ encodeURIComponent (jsValueToString value))
  | .gt field value =>
      pushClause q (field ++ "=$gt." ++ encodeURIComponent (jsValueToString value))
  | .gte field value =>
      pushClause q (field ++ "=$gte." ++ encodeURIComponent (jsValueToString value))
  | .lt field value =>
      pushClause q (field ++ "=$lt." ++ encodeURIComponent (jsValueToString value))
  | .lte field value =>
      pushClause q (field ++ "=$lte." ++ encodeURIComponent (jsValueToString value))
  | .ne field value =>
      pushClause q (field ++ "=$ne." ++ encodeURIComponent (jsValueToString value))
  | .inOp field values =>
      pushClause q (field ++ "=$in." ++ joinComma (values.map jsJoinElement))
  | .notIn field values =>
      pushClause q (field ++ "=$nin." ++ joinComma (values.map jsJoinElement))
  | .nullOp field => pushClause q (field ++ "=$null")
  | .notNullOp field => pushClause q (field ++ "=$notnull")
  | .like field value =>
      pushClause q (field ++ "=$like." ++ encodeURIComponent value)
  | .ilike field value =>
      pushClause q (field ++ "=$ilike." ++ encodeURIComponent value)
  | .notLike field value =>
      pushClause q (field ++ "=$notlike." ++ encodeURIComponent value)
  | .sum field => pushAggregate q ("sum:" ++ field)
  | .avg field => pushAggregate q ("avg:" ++ field)
  | .max field => pushAggregate q ("max:" ++ field)
  | .min field => pushAggregate q ("min:" ++ field)
  | .stdDev field => pushAggregate q ("stddev:" ++ field)
  | .variance field => pushAggregate q ("variance:" ++ field)
  | .having groupFunc field condition value =>
      pushClause q ("having:" ++ groupFunc ++ ":" ++ field ++ ":" ++ condition
        ++ ":" ++ encodeURIComponent (jsValueToString value))
  | .filterRange field start stop =>
      let q1 :=
        if start == JsValue.num 0 || jsTruthy start then
          pushClause q (field ++ "=$gte." ++
            encodeURIComponent (jsValueToString start))
        else q
      if stop == JsValue.num 0 || jsTruthy stop then
        pushClause q1 (field ++ "=$lte." ++
          encodeURIComponent (jsValueToString stop))
      else q1
  | .join joinType jointable localField operator foreignField =>
      pushClause q ("_join=" ++ joinType ++ ":" ++ jointable ++ ":" ++
        localField ++ ":" ++ operator ++ ":" ++ foreignField)
  | .jsonbFilter field jsonField value =>
      pushClause q (field ++ "->>" ++ jsonField ++ ":jsonb=" ++
        encodeURIComponent (jsValueToString value))
  | .textSearch field tsQueryArg language =>
      let langPart := match language with
        | some l => if l == "" then "" else "$" ++ l
        | none => ""
      pushClause q (field ++ langPart ++ ":tsquery=" ++
        encodeURIComponent tsQueryArg)

/-- A whole chain of builder calls, applied in invocation order. -/
def applyOps (q : ChainedQuery) : List BuilderOp → ChainedQuery
  | [] => q
  | op :: ops => applyOps (applyOp q op) ops

/-- The clause strings a single builder call appends to chainedOperations,
read off from the push calls of each method body. -/
def opClauses : BuilderOp → List String
  | .page n => [stringifyPair "_page" (toString n)]
  | .pageSize n => [stringifyPair "_page_size" (toString n)]
  | .select fields => [stringifyPair "_select" fields]
  | .count field =>
      [stringifyPair "_count" (match field with
        | some f => if f == "" then "*" else f
        | none => "*")]
  | .countFirst b => [stringifyPair "_count_first" (if b then "true" else "false")]
  | .renderer r => [stringifyPair "_renderer" (renderModeString r)]
  | .distinct b => [stringifyPair "_distinct" (if b then "true" else "false")]
  | .order fields =>
      [stringifyPair "_order"
        (joinComma (fields.map fun f => if f.startsWith "-" then f else f))]
  | .groupBy fields => [stringifyPair "_groupby" (joinComma fields)]
  | .eq field value => [field ++ "=" ++ encodeURIComponent (jsValueToString value)]
  | .gt field value => [field ++ "=$gt." ++ encodeURIComponent (jsValueToString value)]
  | .gte field value => [field ++ "=$gte." ++ encodeURIComponent (jsValueToString value)]
  | .lt field value => [field ++ "=$lt." ++ encodeURIComponent (jsValueToString value)]
  | .lte field value => [field ++ "=$lte." ++ encodeURIComponent (jsValueToString value)]
  | .ne field value => [field ++ "=$ne." ++ encodeURIComponent (jsValueToString value)]
  | .inOp field values =>
      [field ++ "=$in." ++ joinComma (values.map jsJoinElement)]
  | .notIn field values =>
      [field ++ "=$nin." ++ joinComma (values.map jsJoinElement)]
  | .nullOp field => [field ++ "=$null"]
  | .notNullOp field => [field ++ "=$notnull"]
  | .like field value => [field ++ "=$like." ++ encodeURIComponent value]
  | .ilike field value => [field ++ "=$ilike." ++ encodeURIComponent value]
  | .notLike field value => [field ++ "=$notlike." ++ encodeURIComponent value]
  | .sum _ => []
  | .avg _ => []
  | .max _ => []
  | .min _ => []
  | .stdDev _ => []
  | .variance _ => []
  | .having groupFunc field condition value =>
      ["having:" ++ groupFunc ++ ":" ++ field ++ ":" ++ condition ++ ":" ++
        encodeURIComponent (jsValueToString value)]
  | .filterRange field start stop =>
      (if start == JsValue.num 0 || jsTruthy start then
        [field ++ "=$gte." ++ encodeURIComponent (jsValueToString start)]
      else []) ++
      (if stop == JsValue.num 0 || jsTruthy stop then
        [field ++ "=$lte." ++ encodeURIComponent (jsValueToString stop)]
      else [])
  | .join joinType jointable localField operator foreignField =>
      ["_join=" ++ joinType ++ ":" ++ jointable ++ ":" ++ localField ++ ":" ++
        operator ++ ":" ++ foreignField]
  | .jsonbFilter field jsonField value =>
      [field ++ "->>" ++ jsonField ++ ":jsonb=" ++
        encodeURIComponent (jsValueToString value)]
  | .textSearch field tsQueryArg language =>
      [field ++ (match language with
        | some l => if l == "" then "" else "$" ++ l
        | none => "") ++ ":tsquery=" ++ encodeURIComponent tsQueryArg]

/-- The aggregate tokens a single builder call appends to sqlFunctions. -/
def opAggregates : BuilderOp → List String
  | .sum field => ["sum:" ++ field]
  | .avg field => ["avg:" ++ field]
  | .max field => ["max:" ++ field]
  | .min field => ["min:" ++ field]
  | .stdDev field => ["stddev:" ++ field]
  | .variance field => ["variance:" ++ field]
  | _ => []

theorem applyOp_chainedOperations (q : ChainedQuery) (op : BuilderOp) :
    (applyOp q op).chainedOperations = q.chainedOperations ++ opClauses op := by
  cases op <;>
    simp only [applyOp, opClauses, pushClause, pushAggregate, List.append_nil] <;>
    first
      | rfl
      | (split <;> split <;>
          simp [pushClause, List.append_assoc, List.append_nil])

theorem applyOp_sqlFunctions (q : ChainedQuery) (op : BuilderOp) :
    (applyOp q op).sqlFunctions = q.sqlFunctions ++ opAggregates op := by
  cases op <;>
    simp only [applyOp, opAggregates, pushClause, pushAggregate,
      List.append_nil] <;>
    first
      | rfl
      | (split <;> split <;> simp [pushClause])

theorem applyOp_baseUrl (q : ChainedQuery) (op : BuilderOp) :
    (applyOp q op).baseUrl = q.baseUrl := by
  cases op <;>
    simp only [applyOp, pushClause, pushAggregate] <;>
    first
      | rfl
      | (split <;> split <;> simp [pushClause])

theorem applyOp_reqType (q : ChainedQuery) (op : BuilderOp) :
    (applyOp q op).reqType = q.reqType := by
  cases op <;>
    simp only [applyOp, pushClause, pushAggregate] <;>
    first
      | rfl
      | (split <;> split <;> simp [pushClause])

theorem applyOp_body (q : ChainedQuery) (op : BuilderOp) :
    (applyOp q op).body = q.body := by
  cases op <;>
    simp only [applyOp, pushClause, pushAggregate] <;>
    first
      | rfl
      | (split <;> split <;> simp [pushClause])

theorem applyOp_rendererArg (q : ChainedQuery) (op : BuilderOp)
    (h : ∀ r, op ≠ BuilderOp.renderer r) :
    (applyOp q op).rendererArg = q.rendererArg := by
  cases op <;>
    first
      | (exact absurd rfl (h _))
      | (simp only [applyOp, pushClause, pushAggregate] <;>
          first
            | rfl
            | (split <;> split <;> simp [pushClause]))

theorem applyOps_chainedOperations (ops : List BuilderOp) :
    ∀ q : ChainedQuery, (applyOps q ops).chainedOperations =
      q.chainedOperations ++ (ops.map opClauses).flatten := by
  induction ops with
  | nil => intro q; simp [applyOps]
  | cons op ops ih =>
    intro q
    simp only [applyOps, List.map_cons, List.flatten_cons]
    rw [ih, applyOp_chainedOperations, List.append_assoc]

theorem applyOps_sqlFunctions (ops : List BuilderOp) :
    ∀ q : ChainedQuery, (applyOps q ops).sqlFunctions =
      q.sqlFunctions ++ (ops.map opAggregates).flatten := by
  induction ops with
  | nil => intro q; simp [applyOps]
  | cons op ops ih =>
    intro q
    simp only [applyOps, List.map_cons, List.flatten_cons]
    rw [ih, applyOp_sqlFunctions, List.append_assoc]

theorem applyOps_baseUrl (ops : List BuilderOp) :
    ∀ q : ChainedQuery, (applyOps q ops).baseUrl = q.baseUrl := by
  induction ops with
  | nil => intro q; rfl
  | cons op ops ih => intro q; simp only [applyOps]; rw [ih, applyOp_baseUrl]

theorem applyOps_reqType (ops : List BuilderOp) :
    ∀ q : ChainedQuery, (applyOps q ops).reqType = q.reqType := by
  induction ops with
  | nil => intro q; rfl
  | cons op ops ih => intro q; simp only [applyOps]; rw [ih, applyOp_reqType]

theorem applyOps_body (ops : List BuilderOp) :
    ∀ q : ChainedQuery, (applyOps q ops).body = q.body := by
  induction ops with
  | nil => intro q; rfl
  | cons op ops ih => intro q; simp only [applyOps]; rw [ih, applyOp_body]

/-- The ampersand-joined tail of the clause list, as produced by the for loop
in execute() that runs over chainedOperations from index one. -/
def ampJoinTail : List String → String
  | [] => ""
  | c :: cs => "&" ++ c ++ ampJoinTail cs

/-- The URL assembled by execute(): baseUrl, then a question mark and the
first clause followed by the ampersand-joined rest whenever chainedOperations
is non-empty, then the single trailing _select directive whenever
sqlFunctions is non-empty. -/
def executeUrl (q : ChainedQuery) : String :=
  let clausesUrl :=
    match q.chainedOperations with
    | [] => q.baseUrl
    | c :: cs => q.baseUrl ++ "?" ++ c ++ ampJoinTail cs
  if q.sqlFunctions.length > 0 then
    clausesUrl ++ "&_select=" ++ joinComma q.sqlFunctions
  else clausesUrl

/-- The decoded form execute() returns the response in: the raw blob for
export requests, otherwise the structured json decode when the renderer
argument is json, otherwise the text decode. -/
inductive DecodedResponse where
  | blobOf (payload : String)
  | jsonOf (payload : String)
  | textOf (payload : String)
deriving DecidableEq, Repr

/-- The decode-path dispatch at the end of execute(). -/
def decodeResponse (q : ChainedQuery) (payload : String) : DecodedResponse :=
  if q.reqType = ReqType.exportData then DecodedResponse.blobOf payload
  else if q.rendererArg = RenderMode.json then DecodedResponse.jsonOf payload
  else DecodedResponse.textOf payload

/-- Outcome of the single transport call execute() makes: a successful
response body, or a thrown error carrying a message. -/
inductive TransportResult where
  | ok (payload : String)
  | fail (message : String)
deriving DecidableEq, Repr

/-- The catch block of execute(): the thrown message is wrapped once. -/
def wrapExecuteError (m : String) : String :=
  "Failed to make API request: " ++ m

/-- execute() after URL assembly: one transport call, decode on success,
wrap and rethrow on failure. -/
def executeWith (q : ChainedQuery) (t : TransportResult) :
    Except String DecodedResponse :=
  match t with
  | .ok payload => .ok (decodeResponse q payload)
  | .fail m => .error (wrapExecuteError m)

/-- execute() against a supply of transport attempt outcomes, indexed by
attempt number: only attempt zero is ever consumed. -/
def executeAgainst (q : ChainedQuery) (attempts : Nat → TransportResult) :
    Except String DecodedResponse :=
  executeWith q (attempts 0)

/-- The message thrown inside createClient when the fetch for each verb
reports a non-success status, before execute() wraps it. -/
def transportFailureMessage : ReqType → String → String
  | .get, statusText => "Failed to fetch data: " ++ statusText
  | .exportData, statusText => "Failed to export data: " ++ statusText
  | .post, statusText => "Failed to insert data: " ++ statusText
  | .put, statusText => "Failed to update data: " ++ statusText
  | .delete, statusText => "Failed to delete data: " ++ statusText

/-- JavaScript String.prototype.split with a one-character separator, on the
character list of the string. -/
def splitOnChar (sep : Char) : List Char → List (List Char)
  | [] => [[]]
  | c :: cs =>
    let r := splitOnChar sep cs
    if c = sep then [] :: r
    else (c :: r.headD []) :: r.tail

/-- The schema and table resolution at the top of PrestApiClient.table: when
the identifier has a dot it is split on every dot, the schema is the first
part unless that part is empty (then it stays public), and the table is the
second part; without a dot the schema is public and the identifier is the
table. -/
def tableSchemaSplit (tableName : String) : String × String :=
  if ('.') ∈ tableName.data then
    let parts := (splitOnChar '.' tableName.data).map fun l => String.mk l
    (if parts.headD "" = "" then "public" else parts.headD "",
     parts.getD 1 "")
  else ("public", tableName)

/-- The fresh ChainedQuery returned by table(name).list(). -/
def tableList (base tbl : String) : ChainedQuery :=
  let p := tableSchemaSplit tbl
  { baseUrl := base ++ "/" ++ p.1 ++ "/" ++ p.2
    reqType := ReqType.get
    body := JsValue.jsNull
    rendererArg := RenderMode.json
    sqlFunctions := []
    chainedOperations := [] }

/-- The fresh ChainedQuery returned by table(name).show(). -/
def tableShow (base tbl : String) : ChainedQuery :=
  let p := tableSchemaSplit tbl
  { tableList base tbl with baseUrl := base ++ "/show/" ++ p.1 ++ "/" ++ p.2 }

/-- The fresh ChainedQuery returned by table(name).export(data). -/
def tableExport (base tbl : String) (data : JsValue) : ChainedQuery :=
  let p := tableSchemaSplit tbl
  { baseUrl := base ++ "/export/" ++ p.1 ++ "/" ++ p.2
    reqType := ReqType.exportData
    body := data
    rendererArg := RenderMode.json
    sqlFunctions := []
    chainedOperations := [] }

/-- The fresh ChainedQuery returned by table(name).insert(data). -/
def tableInsert (base tbl : String) (data : JsValue) : ChainedQuery :=
  let p := tableSchemaSplit tbl
  { tableExport base tbl data with
      baseUrl := base ++ "/" ++ p.1 ++ "/" ++ p.2
      reqType := ReqType.post }

/-- The fresh ChainedQuery returned by table(name).batchInsert(data). -/
def tableBatchInsert (base tbl : String) (data : JsValue) : ChainedQuery :=
  let p := tableSchemaSplit tbl
  { tableExport base tbl data with
      baseUrl := base ++ "/batch/" ++ p.1 ++ "/" ++ p.2
      reqType := ReqType.post }

/-- The fresh ChainedQuery returned by table(name).update(data). -/
def tableUpdate (base tbl : String) (data : JsValue) : ChainedQuery :=
  let p := tableSchemaSplit tbl
  { tableExport base tbl data with
      baseUrl := base ++ "/" ++ p.1 ++ "/" ++ p.2
      reqType := ReqType.put }

/-- The fresh ChainedQuery returned by table(name).delete(). -/
def tableDelete (base tbl : String) : ChainedQuery :=
  let p := tableSchemaSplit tbl
  { tableList base tbl with
      baseUrl := base ++ "/" ++ p.1 ++ "/" ++ p.2
      reqType := ReqType.delete }

/-- Does the first list begin the second one. -/
def leadsWith [DecidableEq α] : List α → List α → Bool
  | [], _ => true
  | _ :: _, [] => false
  | a :: as, b :: bs => a == b && leadsWith as bs

/-- Does the first list occur as a contiguous run inside the second one. -/
def hasSubSeq [DecidableEq α] (needle : List α) : List α → Bool
  | [] => leadsWith needle []
  | b :: bs => leadsWith needle (b :: bs) || hasSubSeq needle bs

/-- Does the needle occur as a substring of the haystack. -/
def strContainsSub (hay needle : String) : Bool :=
  hasSubSeq needle.data hay.data

theorem splitOnChar_ne_nil (sep : Char) (l : List Char) :
    splitOnChar sep l ≠ [] := by
  cases l with
  | nil => simp [splitOnChar]
  | cons c cs =>
    simp only [splitOnChar]
    split <;> simp

theorem splitOnChar_append_sep (sep : Char) (a b : List Char) (h : sep ∉ a) :
    splitOnChar sep (a ++ sep :: b) = a :: splitOnChar sep b := by
  induction a with
  | nil => simp [splitOnChar]
  | cons c a ih =>
    have hc : ¬(c = sep) := fun e => h (e ▸ List.mem_cons_self c a)
    have ha : sep ∉ a := fun hm => h (List.mem_cons_of_mem c hm)
    show splitOnChar sep (c :: (a ++ sep :: b)) = (c :: a) :: splitOnChar sep b
    simp only [splitOnChar, if_neg hc, ih ha, List.headD_cons, List.tail_cons]

theorem splitOnChar_headD_takeWhile (sep : Char) (l : List Char) :
    (splitOnChar sep l).headD [] = l.takeWhile (fun c => c != sep) := by
  induction l with
  | nil => rfl
  | cons c cs ih =>
    by_cases hc : c = sep
    · subst hc
      simp [splitOnChar, List.takeWhile_cons]
    · simp only [splitOnChar, if_neg hc, List.headD_cons, List.takeWhile_cons]
      have : (c != sep) = true := by simp [hc]
      rw [this]
      simp only [if_true, ih]

theorem tableSchemaSplit_no_dot (t : String) (h : ('.') ∉ t.data) :
    tableSchemaSplit t = ("public", t) := by
  unfold tableSchemaSplit
  rw [if_neg h]

theorem tableSchemaSplit_dotted (a b : List Char) (h : ('.') ∉ a) :
    tableSchemaSplit (String.mk (a ++ '.' :: b)) =
      ((if a = [] then "public" else String.mk a),
        String.mk (b.takeWhile (fun c => c != '.'))) := by
  have hmem : ('.') ∈ (String.mk (a ++ '.' :: b)).data :=
    List.mem_append.mpr (Or.inr (List.mem_cons_self _ _))
  obtain ⟨s, ss, hss⟩ : ∃ s ss, splitOnChar '.' b = s :: ss := by
    cases hsp : splitOnChar '.' b with
    | nil => exact absurd hsp (splitOnChar_ne_nil '.' b)
    | cons s ss => exact ⟨s, ss, rfl⟩
  have hhead : s = b.takeWhile (fun c => c != '.') := by
    have := splitOnChar_headD_takeWhile '.' b
    rw [hss] at this
    simpa using this
  unfold tableSchemaSplit
  rw [if_pos hmem]
  show ((if ((splitOnChar '.' (a ++ '.' :: b)).map String.mk).headD "" = ""
        then "public"
        else ((splitOnChar '.' (a ++ '.' :: b)).map String.mk).headD ""),
      ((splitOnChar '.' (a ++ '.' :: b)).map String.mk).getD 1 "") = _
  rw [splitOnChar_append_sep '.' a b h, hss]
  simp only [List.map_cons, List.headD_cons, List.getD_cons_succ,
    List.getD_cons_zero]
  have hiff : (String.mk a = "") ↔ a = [] := by
    constructor
    · intro e; exact congrArg String.data e
    · intro e; subst e; rfl
  rw [hhead]
  by_cases ha : a = []
  · simp [ha]
  · rw [if_neg (fun e => ha (hiff.mp e)), if_neg ha]

/-- C1: for a ChainedQuery with a non-empty clause list (and no aggregate
tokens), execute() builds the URL as baseUrl, a question mark, the first
clause, and an ampersand before each remaining clause in order; and the
chain table products, list, page 1, pageSize 10 requests exactly
baseUrl followed by /public/products?_page=1&_page_size=10. -/
theorem c1_execute_url_shape (q : ChainedQuery) (c : String) (cs : List String)
    (hops : q.chainedOperations = c :: cs) (hagg : q.sqlFunctions = []) :
    executeUrl q = q.baseUrl ++ "?" ++ c ++ ampJoinTail cs
    ∧ executeUrl (applyOps (tableList "http://localhost:3000" "products")
        [BuilderOp.page 1, BuilderOp.pageSize 10]) =
      "http://localhost:3000" ++ "/public/products?_page=1&_page_size=10" := by
  constructor
  · unfold executeUrl
    rw [hops, hagg]
    simp
  · rfl

theorem c1_witness :
    executeUrl (applyOps (tableList "B" "t") [BuilderOp.nullOp "x"]) =
      (applyOps (tableList "B" "t") [BuilderOp.nullOp "x"]).baseUrl ++ "?" ++
        "x=$null" ++ ampJoinTail [] :=
  (c1_execute_url_shape (applyOps (tableList "B" "t") [BuilderOp.nullOp "x"])
    "x=$null" [] (by decide) (by decide)).1

/-- C2: every builder call appends exactly its clause fragments at the end of
the clause list, and over a whole chain the clause list is the initial list
followed by the fragments of each call in invocation order — nothing is
reordered or removed. -/
theorem c2_clause_order_preservation :
    (∀ (q : ChainedQuery) (op : BuilderOp),
      (applyOp q op).chainedOperations = q.chainedOperations ++ opClauses op)
    ∧ (∀ (q : ChainedQuery) (ops : List BuilderOp),
      (applyOps q ops).chainedOperations =
        q.chainedOperations ++ (ops.map opClauses).flatten) :=
  ⟨applyOp_chainedOperations, fun q ops => applyOps_chainedOperations ops q⟩

/-- C3 counterexample: the claim says a dotted identifier is split on the
first dot with the entire right part becoming the table, so a.b.c would
resolve to table b.c; the code instead resolves it to table b. -/
theorem c3_counterexample :
    tableSchemaSplit "a.b.c" = ("a", "b")
    ∧ tableSchemaSplit "a.b.c" ≠ ("a", "b.c") := by
  constructor
  · decide
  · decide

/-- C3 (amended): an identifier without a dot resolves to schema public and
the whole identifier as table; an identifier with a dot resolves to the part
before the first dot as schema (public when that part is empty) and the part
between the first and second dot as table — anything after a second dot is
discarded.  The three examples of the claim hold as stated. -/
theorem c3_schema_table_resolution :
    (∀ t : String, ('.') ∉ t.data → tableSchemaSplit t = ("public", t))
    ∧ (∀ a b : List Char, ('.') ∉ a →
        tableSchemaSplit (String.mk (a ++ '.' :: b)) =
          ((if a = [] then "public" else String.mk a),
            String.mk (b.takeWhile (fun c => c != '.'))))
    ∧ tableSchemaSplit "categories" = ("public", "categories")
    ∧ tableSchemaSplit "public.categories" = ("public", "categories")
    ∧ tableSchemaSplit "public." = ("public", "") := by
  refine ⟨tableSchemaSplit_no_dot, tableSchemaSplit_dotted, ?_, ?_, ?_⟩ <;>
    decide

theorem c3_witness :
    tableSchemaSplit "xyz" = ("public", "xyz")
    ∧ tableSchemaSplit (String.mk (['p'] ++ '.' :: ['t', '.', 'u'])) =
        ((if (['p'] : List Char) = [] then "public" else String.mk ['p']),
          String.mk (['t', '.', 'u'].takeWhile (fun c => c != '.'))) :=
  ⟨c3_schema_table_resolution.1 "xyz" (by decide),
   c3_schema_table_resolution.2.1 ['p'] ['t', '.', 'u'] (by decide)⟩

/-- C4: whenever the aggregate list is non-empty, execute() appends exactly
one trailing _select directive with the comma-joined tokens after all clause
fragments; the groupBy then sum example and its swapped order both produce a
URL ending in the single directive with token sum:category_id. -/
theorem c4_aggregates_trailing (q : ChainedQuery) (hagg : q.sqlFunctions ≠ []) :
    executeUrl q =
      executeUrl { q with sqlFunctions := [] } ++ "&_select=" ++
        joinComma q.sqlFunctions
    ∧ executeUrl (applyOps (tableList "B" "categories")
        [BuilderOp.groupBy ["category_id"], BuilderOp.sum "category_id"]) =
      "B/public/categories?_groupby=category_id" ++ "&_select=sum:category_id"
    ∧ executeUrl (applyOps (tableList "B" "categories")
        [BuilderOp.sum "category_id", BuilderOp.groupBy ["category_id"]]) =
      "B/public/categories?_groupby=category_id" ++
        "&_select=sum:category_id" := by
  refine ⟨?_, rfl, rfl⟩
  obtain ⟨bu, rt, bo, ra, sf, co⟩ := q
  have hl : 0 < sf.length := List.length_pos.mpr hagg
  unfold executeUrl
  simp only [if_pos hl]
  rw [if_neg (by simp)]

theorem c4_witness :
    executeUrl (applyOps (tableList "B" "t") [BuilderOp.sum "x"]) =
      executeUrl { applyOps (tableList "B" "t") [BuilderOp.sum "x"] with
          sqlFunctions := [] } ++ "&_select=" ++
        joinComma (applyOps (tableList "B" "t")
          [BuilderOp.sum "x"]).sqlFunctions :=
  (c4_aggregates_trailing (applyOps (tableList "B" "t") [BuilderOp.sum "x"])
    (by decide)).1

/-- C5: the in and notIn builders append a single clause whose value part is
the raw comma-join of the values with no per-value percent-encoding, so
in of x with 1, 2, 3 appends exactly x=$in.1,2,3 and a value with a space
stays unescaped — unlike eq, whose value is percent-encoded. -/
theorem c5_in_notin_unencoded :
    (∀ (q : ChainedQuery) (field : String) (values : List JsValue),
      (applyOp q (BuilderOp.inOp field values)).chainedOperations =
        q.chainedOperations ++
          [field ++ "=$in." ++ joinComma (values.map jsJoinElement)])
    ∧ (∀ (q : ChainedQuery) (field : String) (values : List JsValue),
      (applyOp q (BuilderOp.notIn field values)).chainedOperations =
        q.chainedOperations ++
          [field ++ "=$nin." ++ joinComma (values.map jsJoinElement)])
    ∧ (applyOp (tableList "B" "t") (BuilderOp.inOp "x"
        [JsValue.num 1, JsValue.num 2, JsValue.num 3])).chainedOperations =
      ["x=$in.1,2,3"]
    ∧ (applyOp (tableList "B" "t")
        (BuilderOp.inOp "x" [JsValue.str "a b"])).chainedOperations =
      ["x=$in.a b"]
    ∧ (applyOp (tableList "B" "t")
        (BuilderOp.eq "x" (JsValue.str "a b"))).chainedOperations =
      ["x=a%20b"] := by
  refine ⟨?_, ?_, rfl, rfl, rfl⟩
  · intro q field values
    exact applyOp_chainedOperations q (BuilderOp.inOp field values)
  · intro q field values
    exact applyOp_chainedOperations q (BuilderOp.notIn field values)

/-- C6: for an export query execute() always returns the raw payload, no
matter which builder calls — renderer included — were made before; for a
non-export query the payload is decoded as structured json exactly when the
renderer argument is json, and as text otherwise. -/
theorem c6_decode_dispatch :
    (∀ (q : ChainedQuery) (ops : List BuilderOp) (payload : String),
      q.reqType = ReqType.exportData →
      decodeResponse (applyOps q ops) payload = DecodedResponse.blobOf payload)
    ∧ (∀ (q : ChainedQuery) (payload : String),
      q.reqType ≠ ReqType.exportData →
      decodeResponse q payload =
        if q.rendererArg = RenderMode.json then DecodedResponse.jsonOf payload
        else DecodedResponse.textOf payload)
    ∧ (∀ (base tbl payload : String) (data : JsValue),
      decodeResponse (applyOps (tableExport base tbl data)
          [BuilderOp.renderer RenderMode.json]) payload =
        DecodedResponse.blobOf payload
      ∧ decodeResponse (applyOps (tableExport base tbl data)
          [BuilderOp.renderer RenderMode.xml]) payload =
        DecodedResponse.blobOf payload) := by
  refine ⟨?_, ?_, ?_⟩
  · intro q ops payload h
    unfold decodeResponse
    rw [applyOps_reqType, h, if_pos rfl]
  · intro q payload h
    unfold decodeResponse
    rw [if_neg h]
  · intro base tbl payload data
    constructor <;>
      · unfold decodeResponse
        rw [applyOps_reqType]
        rfl

theorem c6_witness :
    decodeResponse (applyOps (tableExport "B" "t" JsValue.jsNull)
        [BuilderOp.renderer RenderMode.json]) "p" = DecodedResponse.blobOf "p"
    ∧ decodeResponse (tableList "B" "t") "p" =
        (if (tableList "B" "t").rendererArg = RenderMode.json
         then DecodedResponse.jsonOf "p" else DecodedResponse.textOf "p") :=
  ⟨c6_decode_dispatch.1 (tableExport "B" "t" JsValue.jsNull)
      [BuilderOp.renderer RenderMode.json] "p" rfl,
   c6_decode_dispatch.2.1 (tableList "B" "t") "p" (by decide)⟩

/-- C7 counterexample: the claim says the wrapped error message carries the
failed operation context including the target table; for a failing GET on
table products the message is a fixed wrapper around the transport message
and the table name products appears nowhere in it. -/
theorem c7_counterexample :
    executeAgainst (tableList "http://h" "products")
        (fun _ => TransportResult.fail
          (transportFailureMessage ReqType.get "Not Found")) =
      Except.error
        "Failed to make API request: Failed to fetch data: Not Found"
    ∧ strContainsSub
        "Failed to make API request: Failed to fetch data: Not Found"
        "products" = false := by
  constructor
  · rfl
  · decide

/-- C7 (amended): a transport failure makes execute() reject with a single
wrapped error whose message is the fixed wrapper text followed by the
underlying message (for a non-success status: the verb-specific action text
and the status text, without the target table or script name), and the
result depends only on the first transport attempt — no retry happens. -/
theorem c7_error_propagation :
    (∀ (q : ChainedQuery) (m : String),
      executeWith q (TransportResult.fail m) =
        Except.error ("Failed to make API request: " ++ m))
    ∧ (∀ (q : ChainedQuery) (a b : Nat → TransportResult), a 0 = b 0 →
      executeAgainst q a = executeAgainst q b)
    ∧ (∀ (q : ChainedQuery) (statusText : String),
      executeAgainst q
          (fun _ => TransportResult.fail
            (transportFailureMessage q.reqType statusText)) =
        Except.error (wrapExecuteError
          (transportFailureMessage q.reqType statusText))) := by
  refine ⟨fun q m => rfl, ?_, fun q st => rfl⟩
  intro q a b h
  unfold executeAgainst
  rw [h]

theorem c7_witness :
    executeAgainst (tableList "B" "t") (fun _ => TransportResult.ok "p") =
      executeAgainst (tableList "B" "t")
        (fun n => if n = 0 then TransportResult.ok "p"
          else TransportResult.fail "x") :=
  c7_error_propagation.2.1 (tableList "B" "t") _ _ rfl

/-- C8: filterRange appends the gte clause exactly when the start bound is
the number zero or truthy and the lte clause exactly when the end bound is
the number zero or truthy; an undefined bound emits nothing on its side, so
a zero bound is distinguished from an absent one. -/
theorem c8_filter_range_bounds :
    (∀ (q : ChainedQuery) (field : String) (start stop : JsValue),
      (applyOp q (BuilderOp.filterRange field start stop)).chainedOperations =
        q.chainedOperations ++
          ((if start == JsValue.num 0 || jsTruthy start then
              [field ++ "=$gte." ++ encodeURIComponent (jsValueToString start)]
            else []) ++
           (if stop == JsValue.num 0 || jsTruthy stop then
              [field ++ "=$lte." ++ encodeURIComponent (jsValueToString stop)]
            else [])))
    ∧ (∀ q : ChainedQuery,
      (applyOp q (BuilderOp.filterRange "f" JsValue.undef
          JsValue.undef)).chainedOperations = q.chainedOperations)
    ∧ (∀ q : ChainedQuery,
      (applyOp q (BuilderOp.filterRange "f" (JsValue.num 0)
          JsValue.undef)).chainedOperations =
        q.chainedOperations ++ ["f=$gte.0"])
    ∧ (∀ q : ChainedQuery,
      (applyOp q (BuilderOp.filterRange "f" JsValue.undef
          (JsValue.num 0))).chainedOperations =
        q.chainedOperations ++ ["f=$lte.0"]) :=
  ⟨fun q field start stop =>
      applyOp_chainedOperations q (BuilderOp.filterRange field start stop),
   fun _ => rfl, fun _ => rfl, fun _ => rfl⟩

/-- C9 counterexample: the claim says builder methods mutate only the clause
and aggregate accumulators, but the renderer method also overwrites the
stored renderer argument of the instance. -/
theorem c9_counterexample :
    (applyOp (tableList "B" "t")
        (BuilderOp.renderer RenderMode.xml)).rendererArg ≠
      (tableList "B" "t").rendererArg := by
  decide

/-- C9 (amended): every builder call leaves baseUrl, reqType and body
unchanged; every builder call other than renderer also leaves the renderer
argument unchanged, while renderer overwrites it (and touches nothing else
beyond its clause push).  In the embedding the builders are pure state
transformers, matching the fluent same-instance return and the absence of
builder-time network activity. -/
theorem c9_builder_frame :
    (∀ (q : ChainedQuery) (op : BuilderOp),
      (applyOp q op).baseUrl = q.baseUrl
      ∧ (applyOp q op).reqType = q.reqType
      ∧ (applyOp q op).body = q.body)
    ∧ (∀ (q : ChainedQuery) (op : BuilderOp),
      (∀ r, op ≠ BuilderOp.renderer r) →
      (applyOp q op).rendererArg = q.rendererArg)
    ∧ (∀ (q : ChainedQuery) (r : RenderMode),
      (applyOp q (BuilderOp.renderer r)).rendererArg = r
      ∧ (applyOp q (BuilderOp.renderer r)).sqlFunctions = q.sqlFunctions
      ∧ (applyOp q (BuilderOp.renderer r)).chainedOperations =
          q.chainedOperations ++ opClauses (BuilderOp.renderer r)) :=
  ⟨fun q op => ⟨applyOp_baseUrl q op, applyOp_reqType q op, applyOp_body q op⟩,
   applyOp_rendererArg,
   fun q r => ⟨rfl, rfl, applyOp_chainedOperations q (BuilderOp.renderer r)⟩⟩

theorem c9_witness :
    (applyOp (tableList "B" "t") (BuilderOp.page 1)).rendererArg =
      (tableList "B" "t").rendererArg :=
  c9_builder_frame.2.1 (tableList "B" "t") (BuilderOp.page 1)
    (fun _ h => nomatch h)

/-- C10: with an empty clause list and non-empty aggregates, the URL is the
base URL immediately followed by the _select directive with a leading
ampersand and no question mark is introduced anywhere, as in the sum example
whose URL is /public/t&_select=sum:x with no question mark. -/
theorem c10_no_question_separator (q : ChainedQuery)
    (hops : q.chainedOperations = []) (hagg : q.sqlFunctions ≠ []) :
    executeUrl q = q.baseUrl ++ "&_select=" ++ joinComma q.sqlFunctions
    ∧ (('?') ∉ q.baseUrl.data → ('?') ∉ (joinComma q.sqlFunctions).data →
        ('?') ∉ (executeUrl q).data)
    ∧ executeUrl (applyOps (tableList "http://localhost:3000" "t")
        [BuilderOp.sum "x"]) =
      "http://localhost:3000/public/t&_select=sum:x"
    ∧ ('?') ∉ "http://localhost:3000/public/t&_select=sum:x".data := by
  have hurl : executeUrl q =
      q.baseUrl ++ "&_select=" ++ joinComma q.sqlFunctions := by
    simp only [executeUrl, hops]
    rw [if_pos (List.length_pos.mpr hagg)]
  refine ⟨hurl, ?_, rfl, by decide⟩
  intro h1 h2
  rw [hurl]
  simp only [String.data_append, List.mem_append, not_or]
  exact ⟨⟨h1, by decide⟩, h2⟩

theorem c10_witness :
    executeUrl (applyOps (tableList "B" "t") [BuilderOp.avg "y"]) =
      (applyOps (tableList "B" "t") [BuilderOp.avg "y"]).baseUrl ++
        "&_select=" ++
        joinComma (applyOps (tableList "B" "t")
          [BuilderOp.avg "y"]).sqlFunctions :=
  (c10_no_question_separator (applyOps (tableList "B" "t") [BuilderOp.avg "y"])
    (by decide) (by decide)).1

end PrestClient
